import Mathlib

/-!
Shallow embedding of the CVE-ingestion-and-classification pipeline
(src/cve_fetcher.py, src/cve_analyzer.py, src/agent.py).

Text is modelled as `List Char`; Python `str.lower` as a character map,
Python's substring operator `in` as an explicit scan, severity scores
(Python floats carrying parsed JSON numbers, never computed upon) as `ℚ`,
JSON values as an inductive type, and the classification oracle as an
explicit function argument returning either a failure (transport error or
non-JSON text) or a parsed JSON value.
-/

/-- Python `str.lower`, restricted to the character map (the keyword list and
all claim inputs are ASCII, where `Char.toLower` agrees with Python). -/
def pyLower (s : List Char) : List Char := s.map Char.toLower

/-- Test whether `n` is an initial segment of `h` (the single step of Python's
substring scan). -/
def startsWith : List Char → List Char → Bool
  | [], _ => true
  | _ :: _, [] => false
  | a :: as, b :: bs => decide (a = b) && startsWith as bs

/-- Python's `n in h` on strings: `n` occurs as a contiguous substring of `h`. -/
def containsSubstr (n : List Char) : List Char → Bool
  | [] => n.isEmpty
  | h@(_ :: rest) => startsWith n h || containsSubstr n rest

/-- Proposition that `n` occurs contiguously inside `h`. -/
def OccursIn (n h : List Char) : Prop := ∃ s t, h = s ++ n ++ t

/-- The fixed OT/ICS keyword list of `CVEOTAnalyzer.__init__`. -/
def ot_keywords : List (List Char) :=
  ["SCADA".toList, "PLC".toList, "HMI".toList, "DCS".toList, "ICS".toList,
   "RTU".toList,
   "Siemens".toList, "Rockwell".toList, "Allen-Bradley".toList,
   "Schneider".toList, "ABB".toList, "Emerson".toList,
   "Modbus".toList, "DNP3".toList, "OPC".toList, "PROFINET".toList,
   "EtherNet/IP".toList, "BACnet".toList,
   "industrial".toList, "factory".toList, "manufacturing".toList,
   "critical infrastructure".toList,
   "water treatment".toList, "power grid".toList, "energy".toList,
   "oil gas".toList, "chemical plant".toList,
   "OT".toList, "operational technology".toList,
   "industrial control".toList, "process control".toList]

/-- The list comprehension at line 48 of `cve_analyzer.py`:
`[k for k in self.ot_keywords if k.lower() in description.lower()]`. -/
def found_keywords (description : List Char) : List (List Char) :=
  ot_keywords.filter (fun k => containsSubstr (pyLower k) (pyLower description))

/-- Boolean pre-screen `CVEOTAnalyzer.is_ot_related` (loops over the lowered
keywords and returns at the first hit). -/
def is_ot_related (description : List Char) : Bool :=
  (ot_keywords.map pyLower).any (fun k => containsSubstr k (pyLower description))

/-! ## JSON values

Model of the values `json.loads`/`json.dump` work with.  Numbers are `ℚ`
(the program never computes with them, it only copies and serializes, and
every numeric literal involved is exactly representable). -/

inductive JValue where
  | null : JValue
  | bool (b : Bool) : JValue
  | num (q : ℚ) : JValue
  | str (s : List Char) : JValue
  | arr (xs : List JValue) : JValue
  | obj (fields : List (List Char × JValue)) : JValue

/-- Python truthiness of a value produced by `json.loads`, as used by
`if llm_response.get("is_ot_related", False):`. -/
def truthy : JValue → Bool
  | .null => false
  | .bool b => b
  | .num q => decide (q ≠ 0)
  | .str s => !s.isEmpty
  | .arr xs => !xs.isEmpty
  | .obj fs => !fs.isEmpty

/-- Lookup of a key in a parsed JSON object (for duplicate keys `json.loads`
keeps the last occurrence, hence `getLast?`). -/
def objGet (fields : List (List Char × JValue)) (key : List Char) : Option JValue :=
  (fields.filter (fun p => decide (p.1 = key))).getLast?.map Prod.snd

/-- Python `dict.get(key, default)` on a parsed JSON object. -/
def objGetD (fields : List (List Char × JValue)) (key : List Char) (dflt : JValue) : JValue :=
  (objGet fields key).getD dflt

/-! ## Candidate records and confirmed threats -/

/-- The `cve_info` dict built by `CVEFetcher.fetch_latest_cves` and consumed
by `CVEOTAnalyzer.analyze_with_llm`.  The `cvss_score` field is doubly
optional: the outer `Option` records whether the dict carries the key at all
(the fetcher always stores it, possibly as Python `None`), the inner one the
stored value (`none` = Python `None`).  The `references` and `raw_data`
entries are carried opaquely by the program and never read, so they are not
modelled. -/
structure CVEData where
  cve_id : List Char
  description : List Char
  cvss_score : Option (Option ℚ)
  published_date : List Char
  last_modified : List Char
deriving DecidableEq

/-- The expression `cve_data.get('cvss_score', 0.0)` at line 45 of
`cve_analyzer.py`: the `0.0` default applies only when the key is absent;
a stored `None` is returned as is. -/
def getCvss (e : Option (Option ℚ)) : Option ℚ :=
  match e with
  | none => some 0
  | some v => v

/-- The `OTThreat` dataclass of `cve_analyzer.py`.  `cvss_score` is annotated
`float` in the source but holds `None` at runtime whenever the candidate's
score was `None`; `ai_insight` is annotated `str` but holds whatever JSON
value `llm_response.get("risk_explanation", ...)` returned. -/
structure OTThreat where
  cve_id : List Char
  cvss_score : Option ℚ
  description : List Char
  ai_insight : JValue
  ot_keywords_found : List (List Char)
  timestamp : List Char

/-- The literal fallback string of the `except` branch of `analyze_with_llm`. -/
def fallbackInsight : List Char := "Rule-based OT detection (LLM unavailable)".toList

/-- The literal default of `llm_response.get("risk_explanation", ...)`. -/
def noInsight : List Char := "No insight provided".toList

/-- The classification oracle: the composite of the transport call
`self.client.responses.create`, `response.output_text.strip()` and
`json.loads`.  `Except.error` covers every failure up to and including
JSON parsing (transport error, oracle unreachable, non-JSON text). -/
def Oracle : Type := CVEData → Except Unit JValue

/-- The fail-open threat built in the `except` branch of `analyze_with_llm`. -/
def fallbackThreat (c : CVEData) (now : List Char) : OTThreat :=
  { cve_id := c.cve_id,
    cvss_score := getCvss c.cvss_score,
    description := c.description.take 500,
    ai_insight := .str fallbackInsight,
    ot_keywords_found := found_keywords c.description,
    timestamp := now }

/-- Body of `CVEOTAnalyzer.analyze_with_llm`, instrumented with the number of
oracle invocations it performs (0 or 1).  `now` stands for
`datetime.now().isoformat()`.  A successful parse yielding a non-object value
makes `llm_response.get` raise `AttributeError`, which the same `except`
clause turns into the fail-open fallback. -/
def analyze_with_llm_run (oracle : Oracle) (now : List Char) (cve_data : CVEData) :
    Option OTThreat × Nat :=
  if (found_keywords cve_data.description).isEmpty then (none, 0)
  else
    match oracle cve_data with
    | .error _ => (some (fallbackThreat cve_data now), 1)
    | .ok llm_response =>
      match llm_response with
      | .obj fields =>
        if truthy (objGetD fields "is_ot_related".toList (.bool false)) then
          (some { cve_id := cve_data.cve_id,
                  cvss_score := getCvss cve_data.cvss_score,
                  description := cve_data.description.take 500,
                  ai_insight := objGetD fields "risk_explanation".toList (.str noInsight),
                  ot_keywords_found := found_keywords cve_data.description,
                  timestamp := now }, 1)
        else (none, 1)
      | _ => (some (fallbackThreat cve_data now), 1)

/-- Return value of `CVEOTAnalyzer.analyze_with_llm`. -/
def analyze_with_llm (oracle : Oracle) (now : List Char) (cve_data : CVEData) :
    Option OTThreat :=
  (analyze_with_llm_run oracle now cve_data).1

/-- The accumulation loop of `CVEOTAnalyzer.batch_analyze` (a fixed `now` is
threaded through; the wall clock plays no role in any property here). -/
def batch_analyze (oracle : Oracle) (now : List Char) (cves : List CVEData) :
    List OTThreat :=
  cves.filterMap (analyze_with_llm oracle now)

/-! ## Source client (`src/cve_fetcher.py`) -/

/-- One vulnerability entry of the feed response, reduced to the parts the
fetcher reads.  `id` stands for `cve.get('id', '')` (an absent id is its
default `''`).  `descriptions` is `none` when the key is absent (so the
default `[{}]` applies) and otherwise the list of each entry's
`get('value', '')`.  The three `cvssMetric*` fields hold the `baseScore` of
the first entry of the corresponding scheme when the scheme is present. -/
structure RawCVE where
  id : List Char
  descriptions : Option (List (List Char))
  cvssMetricV31 : Option ℚ
  cvssMetricV30 : Option ℚ
  cvssMetricV2 : Option ℚ
  published : List Char
  lastModified : List Char
deriving DecidableEq

/-- The expression `cve_data.get('descriptions', [{}])[0].get('value', '')`:
an absent key falls back to `''`, a present but empty list raises
`IndexError` (aborting the whole fetch), otherwise the first entry's value. -/
def extractDescription : Option (List (List Char)) → Option (List Char)
  | none => some []
  | some [] => none
  | some (d :: _) => some d

/-- The `if/elif` chain over `cvssMetricV31`, `cvssMetricV30`, `cvssMetricV2`
(most recent scheme first, `None` when all are absent). -/
def extractCvss (v : RawCVE) : Option ℚ :=
  match v.cvssMetricV31 with
  | some s => some s
  | none =>
    match v.cvssMetricV30 with
    | some s => some s
    | none =>
      match v.cvssMetricV2 with
      | some s => some s
      | none => none

/-- The record loop of `fetch_latest_cves`.  Returns the accumulated
`cve_info` list (or `none` when a record raised mid-loop, in which case the
`except` clause discards the list) together with the `processed_cves` set as
it stands when the loop ends — identifiers added before a failure stay
added. -/
def processVulns (seen : List (List Char)) : List RawCVE → Option (List CVEData) × List (List Char)
  | [] => (some [], seen)
  | v :: rest =>
    if v.id ∈ seen then processVulns seen rest
    else
      match extractDescription v.descriptions with
      | none => (none, seen)
      | some desc =>
        match processVulns (v.id :: seen) rest with
        | (some cves, seen') =>
          (some ({ cve_id := v.id, description := desc,
                   cvss_score := some (extractCvss v),
                   published_date := v.published,
                   last_modified := v.lastModified } :: cves), seen')
        | (none, seen') => (none, seen')

/-- The mutable state of a `CVEFetcher` instance: its `processed_cves` set
(modelled as the list of identifiers added so far). -/
structure CVEFetcher where
  processed_cves : List (List Char)
deriving DecidableEq

/-- `CVEFetcher.fetch_latest_cves`, with the network interaction abstracted
into the `resp` argument: `Except.error` covers a transport failure,
`raise_for_status`, or a non-JSON body — all raised before the loop touches
`processed_cves` — and `Except.ok` the parsed `vulnerabilities` list.  Every
failure path returns `[]` instead of raising. -/
def fetch_latest_cves (st : CVEFetcher) (resp : Except Unit (List RawCVE)) :
    List CVEData × CVEFetcher :=
  match resp with
  | .error _ => ([], st)
  | .ok vulns =>
    match processVulns st.processed_cves vulns with
    | (some cves, seen') => (cves, ⟨seen'⟩)
    | (none, seen') => ([], ⟨seen'⟩)

/-- A sequence of `fetch_latest_cves` calls on one client instance, collecting
each call's returned records. -/
def runFetch (st : CVEFetcher) : List (Except Unit (List RawCVE)) → List (List CVEData) × CVEFetcher
  | [] => ([], st)
  | r :: rs =>
    ((fetch_latest_cves st r).1 :: (runFetch (fetch_latest_cves st r).2 rs).1,
     (runFetch (fetch_latest_cves st r).2 rs).2)

/-- Modelled from the spec: the identifiers of a fetched window that are new
relative to a seen-set, first occurrence per identifier, in window order
(the reference value the record loop's output is compared against). -/
def newIds (seen : List (List Char)) : List RawCVE → List (List Char)
  | [] => []
  | v :: rest =>
    if v.id ∈ seen then newIds seen rest
    else v.id :: newIds (v.id :: seen) rest

/-! ## Threat store (`src/agent.py`) -/

/-- The generator expression `any(t.cve_id == threat.cve_id for t in ts)`. -/
def hasId (ts : List OTThreat) (id : List Char) : Bool :=
  ts.any (fun t => decide (t.cve_id = id))

/-- One iteration of the step-3 loop of `AutonomousOTAgent.run_cycle`:
append `threat` unless an entry with its identifier already exists. -/
def addThreat (ot_threats : List OTThreat) (threat : OTThreat) : List OTThreat :=
  if hasId ot_threats threat.cve_id then ot_threats
  else ot_threats ++ [threat]

/-- The step-3 loop of `run_cycle` over a batch of confirmed threats. -/
def addThreats (ot_threats : List OTThreat) (new : List OTThreat) : List OTThreat :=
  new.foldl addThreat ot_threats

/-- Modelled from the spec: keep, for each identifier, only the first threat
of the sequence carrying it (the reference value the store is compared
against). -/
def firstById : List OTThreat → List OTThreat
  | [] => []
  | t :: rest => t :: firstById (rest.filter (fun u => decide (u.cve_id ≠ t.cve_id)))
termination_by l => l.length
decreasing_by
  simp only [List.length_cons]
  exact Nat.lt_succ_of_le (List.length_filter_le _ _)

/-! ## Persistence (`AutonomousOTAgent.save_threats` / `load_existing_threats`) -/

/-- JSON image of an optional score (`None` serializes to `null`). -/
def encodeCvss : Option ℚ → JValue
  | none => .null
  | some q => .num q

/-- The dict `dataclasses.asdict` builds from an `OTThreat` (keys in field
declaration order, which is the order `json.dump` writes). -/
def threatAsdict (t : OTThreat) : JValue :=
  .obj [("cve_id".toList, .str t.cve_id),
        ("cvss_score".toList, encodeCvss t.cvss_score),
        ("description".toList, .str t.description),
        ("ai_insight".toList, t.ai_insight),
        ("ot_keywords_found".toList, .arr (t.ot_keywords_found.map .str)),
        ("timestamp".toList, .str t.timestamp)]

/-- `AutonomousOTAgent.save_threats`: the JSON document written to the output
file (the whole file is rewritten on every flush). -/
def save_threats (ot_threats : List OTThreat) : JValue :=
  .arr (ot_threats.map threatAsdict)

/-- Inverse of `encodeCvss` on the shapes `save_threats` writes. -/
def decodeCvss : JValue → Option (Option ℚ)
  | .null => some none
  | .num q => some (some q)
  | _ => none

/-- Read back a JSON string field. -/
def decodeStr : JValue → Option (List Char)
  | .str s => some s
  | _ => none

/-- Read back a JSON array of strings. -/
def decodeStrs : List JValue → Option (List (List Char))
  | [] => some []
  | v :: vs =>
    match decodeStr v, decodeStrs vs with
    | some s, some ss => some (s :: ss)
    | _, _ => none

/-- The constructor call `OTThreat(**item)` of `load_existing_threats`:
requires exactly the six dataclass keys (here in the order `save_threats`
writes them, the only shape the program produces) and rebuilds the threat
field for field.  `OTThreat(**item)` performs no type validation; the typed
model only represents field values of the shapes the program itself writes,
so decoding checks those shapes. -/
def threatFromItem : JValue → Option OTThreat
  | .obj [(k1, v1), (k2, v2), (k3, v3), (k4, v4), (k5, v5), (k6, v6)] =>
    if k1 = "cve_id".toList ∧ k2 = "cvss_score".toList ∧ k3 = "description".toList ∧
        k4 = "ai_insight".toList ∧ k5 = "ot_keywords_found".toList ∧ k6 = "timestamp".toList then
      match decodeStr v1, decodeCvss v2, decodeStr v3, v5, decodeStr v6 with
      | some i, some sc, some d, .arr ks, some ts =>
        match decodeStrs ks with
        | some ks' =>
          some { cve_id := i, cvss_score := sc, description := d, ai_insight := v4,
                 ot_keywords_found := ks', timestamp := ts }
        | none => none
      | _, _, _, _, _ => none
    else none
  | _ => none

/-- The list comprehension of `load_existing_threats` applied to the loaded
JSON document: `[OTThreat(**item) for item in data]`. -/
def load_threat_list : List JValue → Option (List OTThreat)
  | [] => some []
  | v :: vs =>
    match threatFromItem v, load_threat_list vs with
    | some t, some ts => some (t :: ts)
    | _, _ => none

/-- `AutonomousOTAgent.load_existing_threats` on an existing output file. -/
def load_existing_threats : JValue → Option (List OTThreat)
  | .arr items => load_threat_list items
  | _ => none

/-! ## Concrete fixtures used by witnesses and counterexamples -/

/-- Oracle whose call (or response parsing) raises. -/
def oracleErr : Oracle := fun _ => .error ()

/-- Insight text used by the always-confirming oracle fixture. -/
def yesInsight : List Char := "Attackers can halt the production line".toList

/-- Oracle answering a well-formed confirmation. -/
def oracleYes : Oracle := fun _ =>
  .ok (.obj [("is_ot_related".toList, .bool true),
             ("risk_explanation".toList, .str yesInsight)])

/-- Oracle answering a well-formed denial (relevance flag `false`). -/
def oracleNo : Oracle := fun _ =>
  .ok (.obj [("is_ot_related".toList, .bool false),
             ("risk_explanation".toList, .str "Not an OT issue".toList)])

/-- Oracle answering a well-formed JSON object without the relevance flag. -/
def oracleNoFlag : Oracle := fun _ =>
  .ok (.obj [("risk_explanation".toList, .str "Some explanation".toList)])

/-- Candidate whose feed score is Python `None` (key present, value null). -/
def cNoScore : CVEData :=
  { cve_id := "CVE-2025-0001".toList,
    description := "Authentication bypass in a PLC web interface".toList,
    cvss_score := some none,
    published_date := [], last_modified := [] }

/-- Candidate with an empty description (matches no keyword). -/
def cEmptyDesc : CVEData :=
  { cve_id := "CVE-2025-0002".toList, description := [],
    cvss_score := some (some 5), published_date := [], last_modified := [] }

/-- The description of the spec's concrete scenario. -/
def c9desc : List Char :=
  "A buffer overflow in the Siemens S7 PLC firmware allows remote code execution".toList

/-- The candidate of the spec's concrete scenario (score 9.8 provided). -/
def c9cve : CVEData :=
  { cve_id := "CVE-2025-1337".toList, description := c9desc,
    cvss_score := some (some (9.8 : ℚ)),
    published_date := [], last_modified := [] }

/-- A feed record that parses cleanly. -/
def rawA : RawCVE :=
  { id := "CVE-A".toList, descriptions := some ["industrial device flaw".toList],
    cvssMetricV31 := some 7, cvssMetricV30 := none, cvssMetricV2 := none,
    published := [], lastModified := [] }

/-- A feed record whose `descriptions` list is empty, so indexing `[0]`
raises `IndexError`. -/
def rawBad : RawCVE :=
  { id := "CVE-B".toList, descriptions := some [],
    cvssMetricV31 := none, cvssMetricV30 := none, cvssMetricV2 := none,
    published := [], lastModified := [] }

/-- The `cve_info` the fetcher builds from `rawA`. -/
def cveA : CVEData :=
  { cve_id := "CVE-A".toList, description := "industrial device flaw".toList,
    cvss_score := some (some 7), published_date := [], last_modified := [] }

/-- A confirmed threat. -/
def threatA : OTThreat :=
  { cve_id := "CVE-A".toList, cvss_score := some 7,
    description := "industrial device flaw".toList,
    ai_insight := .str yesInsight,
    ot_keywords_found := ["industrial".toList], timestamp := "t1".toList }

/-- A later confirmation for the same identifier with different content. -/
def threatA2 : OTThreat :=
  { threatA with ai_insight := .str "different insight".toList,
                 timestamp := "t2".toList }

/-! ## Helper lemmas -/

theorem startsWith_iff (n h : List Char) :
    startsWith n h = true ↔ ∃ t, h = n ++ t := by
  induction n generalizing h with
  | nil => simp [startsWith]
  | cons a as ih =>
    cases h with
    | nil => simp [startsWith]
    | cons b bs =>
      simp only [startsWith, Bool.and_eq_true, decide_eq_true_eq, ih]
      constructor
      · rintro ⟨rfl, t, rfl⟩; exact ⟨t, rfl⟩
      · rintro ⟨t, ht⟩
        injection ht with h1 h2
        exact ⟨h1.symm, t, h2⟩

theorem containsSubstr_iff (n h : List Char) :
    containsSubstr n h = true ↔ OccursIn n h := by
  induction h with
  | nil =>
    simp only [containsSubstr, List.isEmpty_iff, OccursIn]
    constructor
    · rintro rfl; exact ⟨[], [], rfl⟩
    · rintro ⟨s, t, ht⟩
      rcases List.append_eq_nil.mp (List.append_eq_nil.mp ht.symm).1 with ⟨_, h2⟩
      exact h2
  | cons b bs ih =>
    simp only [containsSubstr, Bool.or_eq_true, startsWith_iff, ih, OccursIn]
    constructor
    · rintro (⟨t, ht⟩ | ⟨s, t, ht⟩)
      · exact ⟨[], t, by simp [ht]⟩
      · exact ⟨b :: s, t, by simp [ht]⟩
    · rintro ⟨s, t, ht⟩
      cases s with
      | nil => exact Or.inl ⟨t, by simpa using ht⟩
      | cons c cs =>
        injection ht with h1 h2
        exact Or.inr ⟨cs, t, h2⟩

theorem found_keywords_isEmpty_false {d : List Char} (hk : found_keywords d ≠ []) :
    (found_keywords d).isEmpty = false := by
  cases hh : found_keywords d with
  | nil => exact absurd hh hk
  | cons a as => rfl

theorem analyze_with_llm_cvss (oracle : Oracle) (now : List Char) (c : CVEData)
    (t : OTThreat) (h : analyze_with_llm oracle now c = some t) :
    t.cvss_score = getCvss c.cvss_score := by
  unfold analyze_with_llm analyze_with_llm_run at h
  split at h
  · simp at h
  · split at h
    · simp only [Option.some.injEq] at h
      rw [← h]; rfl
    · split at h
      · split at h
        · simp only [Option.some.injEq] at h
          rw [← h]
        · simp at h
      · simp only [Option.some.injEq] at h
        rw [← h]; rfl

theorem analyze_err (oracle : Oracle) (now : List Char) (c : CVEData)
    (hk : found_keywords c.description ≠ [])
    (herr : oracle c = .error ()) :
    analyze_with_llm_run oracle now c = (some (fallbackThreat c now), 1) := by
  unfold analyze_with_llm_run
  rw [found_keywords_isEmpty_false hk, herr]
  rfl

theorem analyze_ok_obj (oracle : Oracle) (now : List Char) (c : CVEData)
    (fields : List (List Char × JValue))
    (hk : found_keywords c.description ≠ [])
    (hok : oracle c = .ok (.obj fields)) :
    analyze_with_llm_run oracle now c =
      (if truthy (objGetD fields "is_ot_related".toList (.bool false)) then
        (some { cve_id := c.cve_id,
                cvss_score := getCvss c.cvss_score,
                description := c.description.take 500,
                ai_insight := objGetD fields "risk_explanation".toList (.str noInsight),
                ot_keywords_found := found_keywords c.description,
                timestamp := now }, 1)
      else (none, 1)) := by
  unfold analyze_with_llm_run
  rw [found_keywords_isEmpty_false hk, hok]
  rfl

/-! ## Claim theorems -/

/-- C4: for every text input, the matched-term list is exactly the sublist of
the fixed keyword list whose elements occur (after lowering both sides) as a
contiguous substring of the text, and the matched terms keep the fixed list's
order (they form a sublist of `ot_keywords`). -/
theorem relevance_filter_exact (text : List Char) :
    (∀ k, k ∈ found_keywords text ↔
        k ∈ ot_keywords ∧ OccursIn (pyLower k) (pyLower text)) ∧
    List.Sublist (found_keywords text) ot_keywords := by
  refine ⟨fun k => ?_, List.filter_sublist _⟩
  simp [found_keywords, List.mem_filter, containsSubstr_iff]

/-- C5: a candidate whose description matches no keyword is rejected before
the oracle is consulted — the classifier returns nothing and performs zero
oracle invocations, whatever the oracle is. -/
theorem keyword_gate_before_oracle (oracle : Oracle) (now : List Char) (c : CVEData)
    (h : found_keywords c.description = []) :
    analyze_with_llm_run oracle now c = (none, 0) := by
  unfold analyze_with_llm_run
  simp [h]

theorem keyword_gate_before_oracle_witness :
    analyze_with_llm_run oracleErr "t".toList cEmptyDesc = (none, 0) :=
  keyword_gate_before_oracle oracleErr "t".toList cEmptyDesc (by decide)

/-- C1: when the oracle call (or the parsing of its response into JSON)
raises, a keyword-matched candidate still yields exactly one confirmed
threat, whose insight is the fixed literal fallback string and whose matched
keywords are the keyword filter's output for the description. -/
theorem classifier_fail_open (oracle : Oracle) (now : List Char) (c : CVEData)
    (hk : found_keywords c.description ≠ [])
    (herr : oracle c = .error ()) :
    analyze_with_llm oracle now c = some (fallbackThreat c now) ∧
    (fallbackThreat c now).ai_insight = .str fallbackInsight ∧
    (fallbackThreat c now).ot_keywords_found = found_keywords c.description := by
  refine ⟨?_, rfl, rfl⟩
  unfold analyze_with_llm analyze_with_llm_run
  simp [found_keywords_isEmpty_false hk, herr]

theorem classifier_fail_open_witness :
    analyze_with_llm oracleErr "t".toList cNoScore = some (fallbackThreat cNoScore "t".toList) ∧
    (fallbackThreat cNoScore "t".toList).ai_insight = .str fallbackInsight ∧
    (fallbackThreat cNoScore "t".toList).ot_keywords_found = found_keywords cNoScore.description :=
  classifier_fail_open oracleErr "t".toList cNoScore (by decide) rfl

/-- C2 (amended): a confirmed threat's score is the candidate dict's
`cvss_score` entry passed through `dict.get('cvss_score', 0.0)`: the stored
value verbatim when the key is present — including Python `None`, which the
Source Client stores whenever the feed carries no score — and the `0.0`
default only when the key is absent, which the Source Client never produces. -/
theorem severity_copied (oracle : Oracle) (now : List Char) (c : CVEData)
    (t : OTThreat) (h : analyze_with_llm oracle now c = some t) :
    t.cvss_score = getCvss c.cvss_score ∧
    (∀ v, c.cvss_score = some v → t.cvss_score = v) ∧
    (c.cvss_score = none → t.cvss_score = some 0) := by
  have h1 := analyze_with_llm_cvss oracle now c t h
  refine ⟨h1, fun v hv => ?_, fun hv => ?_⟩
  · rw [h1, hv]; rfl
  · rw [h1, hv]; rfl

theorem severity_copied_witness :
    (analyze_with_llm oracleErr "t".toList cNoScore = some (fallbackThreat cNoScore "t".toList)) ∧
    (fallbackThreat cNoScore "t".toList).cvss_score = getCvss cNoScore.cvss_score :=
  ⟨by rfl,
   (severity_copied oracleErr "t".toList cNoScore (fallbackThreat cNoScore "t".toList) (by rfl)).1⟩

/-- C2 (counterexample to the claim as stated): the feed provided no score
for `cNoScore` (its `cvss_score` entry is present and holds Python `None`),
the candidate is confirmed by the fail-open path, yet the resulting threat's
score is `None`, not the numeric sentinel `0.0`. -/
theorem severity_sentinel_counterexample :
    cNoScore.cvss_score = some none ∧
    (analyze_with_llm oracleErr "t".toList cNoScore).isSome = true ∧
    (analyze_with_llm oracleErr "t".toList cNoScore).map OTThreat.cvss_score ≠
      some (some 0) := by
  refine ⟨rfl, rfl, ?_⟩
  intro hcontra
  simp only [analyze_with_llm] at hcontra
  exact absurd (Option.some.inj hcontra) (by decide)

/-- C8: when the oracle's response parses as a JSON object carrying the
relevance flag `false`, a keyword-matched candidate yields nothing — the
oracle's verdict overrides the keyword filter. -/
theorem oracle_false_overrides (oracle : Oracle) (now : List Char) (c : CVEData)
    (fields : List (List Char × JValue))
    (hk : found_keywords c.description ≠ [])
    (hok : oracle c = .ok (.obj fields))
    (hflag : objGet fields "is_ot_related".toList = some (.bool false)) :
    analyze_with_llm oracle now c = none := by
  have h2 : objGetD fields "is_ot_related".toList (.bool false) = .bool false := by
    unfold objGetD; rw [hflag]; rfl
  unfold analyze_with_llm
  rw [analyze_ok_obj oracle now c fields hk hok, h2]
  rfl

theorem oracle_false_overrides_witness :
    analyze_with_llm oracleNo "t".toList cNoScore = none :=
  oracle_false_overrides oracleNo "t".toList cNoScore
    [("is_ot_related".toList, .bool false),
     ("risk_explanation".toList, .str "Not an OT issue".toList)]
    (by decide) rfl (by rfl)

/-- C10: a response that parses as a JSON object but omits the relevance flag
is treated as not relevant (`dict.get` defaults the flag to `False`), so the
classifier emits nothing — while the very same candidate under a
non-parseable response would have been reported through the fail-open
fallback. -/
theorem missing_flag_fail_closed (oracle : Oracle) (now : List Char) (c : CVEData)
    (fields : List (List Char × JValue))
    (hk : found_keywords c.description ≠ [])
    (hok : oracle c = .ok (.obj fields))
    (hflag : objGet fields "is_ot_related".toList = none) :
    analyze_with_llm oracle now c = none ∧
    analyze_with_llm oracleErr now c = some (fallbackThreat c now) := by
  constructor
  · have h2 : objGetD fields "is_ot_related".toList (.bool false) = .bool false := by
      unfold objGetD; rw [hflag]; rfl
    unfold analyze_with_llm
    rw [analyze_ok_obj oracle now c fields hk hok, h2]
    rfl
  · unfold analyze_with_llm
    rw [analyze_err oracleErr now c hk rfl]

theorem missing_flag_fail_closed_witness :
    analyze_with_llm oracleNoFlag "t".toList cNoScore = none ∧
    analyze_with_llm oracleErr "t".toList cNoScore = some (fallbackThreat cNoScore "t".toList) :=
  missing_flag_fail_closed oracleNoFlag "t".toList cNoScore
    [("risk_explanation".toList, .str "Some explanation".toList)]
    (by decide) rfl (by rfl)

/-- C9 (counterexample to the claim as stated): on the scenario description
the keyword filter does not return `["Siemens", "PLC"]` — the fixed list
orders `PLC` before `Siemens`, and the keyword `OT` also matches inside the
word `remote`. -/
theorem scenario_terms_counterexample :
    found_keywords c9desc ≠ ["Siemens".toList, "PLC".toList] := by decide

/-- C9 (amended): on the scenario description the matched terms are
`["PLC", "Siemens", "OT"]` in the fixed list's order, and when the oracle
confirms relevance the confirmed threat carries score 9.8 and the full
unmodified description (it is under 500 characters). -/
theorem scenario_siemens_plc :
    found_keywords c9desc = ["PLC".toList, "Siemens".toList, "OT".toList] ∧
    analyze_with_llm oracleYes "now".toList c9cve = some
      { cve_id := "CVE-2025-1337".toList,
        cvss_score := some (9.8 : ℚ),
        description := c9desc,
        ai_insight := .str yesInsight,
        ot_keywords_found := ["PLC".toList, "Siemens".toList, "OT".toList],
        timestamp := "now".toList } := by
  exact ⟨by decide, by rfl⟩

/-! ## Threat store lemmas -/

theorem hasId_append (ts : List OTThreat) (t : OTThreat) (id : List Char) :
    hasId (ts ++ [t]) id = (hasId ts id || decide (t.cve_id = id)) := by
  simp [hasId]

theorem firstById_cons (t : OTThreat) (l : List OTThreat) :
    firstById (t :: l) =
      t :: firstById (l.filter (fun u => decide (u.cve_id ≠ t.cve_id))) := by
  rw [firstById]

theorem addThreats_eq (new : List OTThreat) :
    ∀ ts, addThreats ts new =
      ts ++ firstById (new.filter (fun u => !hasId ts u.cve_id)) := by
  induction new with
  | nil => intro ts; simp [addThreats, firstById]
  | cons t rest ih =>
    intro ts
    by_cases h : hasId ts t.cve_id = true
    · have e1 : addThreat ts t = ts := by simp [addThreat, h]
      have e2 : (t :: rest).filter (fun u => !hasId ts u.cve_id)
              = rest.filter (fun u => !hasId ts u.cve_id) := by
        simp [List.filter_cons, h]
      calc addThreats ts (t :: rest) = addThreats ts rest := by
            simp [addThreats, List.foldl_cons, e1]
        _ = ts ++ firstById (rest.filter (fun u => !hasId ts u.cve_id)) := ih ts
        _ = ts ++ firstById ((t :: rest).filter (fun u => !hasId ts u.cve_id)) := by
            rw [e2]
    · have hb : hasId ts t.cve_id = false := by
        cases hc : hasId ts t.cve_id
        · rfl
        · exact absurd hc h
      have e1 : addThreat ts t = ts ++ [t] := by simp [addThreat, hb]
      have e2 : (t :: rest).filter (fun u => !hasId ts u.cve_id)
              = t :: rest.filter (fun u => !hasId ts u.cve_id) := by
        simp [List.filter_cons, hb]
      have e3 : rest.filter (fun u => !hasId (ts ++ [t]) u.cve_id)
              = (rest.filter (fun u => !hasId ts u.cve_id)).filter
                  (fun u => decide (u.cve_id ≠ t.cve_id)) := by
        rw [List.filter_filter]
        apply List.filter_congr
        intro u _
        rw [hasId_append, Bool.not_or]
        rw [Bool.and_comm]
        congr 1
        rw [← decide_not, decide_eq_decide]
        constructor
        · exact fun hne => fun he => hne (he.symm)
        · exact fun hne => fun he => hne (he.symm)
      calc addThreats ts (t :: rest)
          = addThreats (ts ++ [t]) rest := by
            simp [addThreats, List.foldl_cons, e1]
        _ = (ts ++ [t]) ++ firstById (rest.filter (fun u => !hasId (ts ++ [t]) u.cve_id)) :=
            ih (ts ++ [t])
        _ = ts ++ (t :: firstById ((rest.filter (fun u => !hasId ts u.cve_id)).filter
              (fun u => decide (u.cve_id ≠ t.cve_id)))) := by
            rw [e3, List.append_assoc]
            rfl
        _ = ts ++ firstById ((t :: rest).filter (fun u => !hasId ts u.cve_id)) := by
            rw [e2, firstById_cons]

theorem mem_firstById {u : OTThreat} : ∀ {l : List OTThreat}, u ∈ firstById l → u ∈ l := by
  intro l
  induction l using firstById.induct with
  | case1 => intro h; exact absurd h (by simp [firstById])
  | case2 t rest ih =>
    intro h
    rw [firstById_cons] at h
    rcases List.mem_cons.mp h with h1 | h2
    · exact h1 ▸ List.mem_cons_self t rest
    · exact List.mem_cons_of_mem t (List.mem_of_mem_filter (ih h2))

theorem firstById_pairwise : ∀ l : List OTThreat,
    (firstById l).Pairwise (fun a b => a.cve_id ≠ b.cve_id) := by
  intro l
  induction l using firstById.induct with
  | case1 => simp [firstById]
  | case2 t rest ih =>
    rw [firstById_cons]
    refine List.Pairwise.cons ?_ ih
    intro b hb
    have hmem := mem_firstById hb
    have := List.of_mem_filter hmem
    simp only [decide_eq_true_eq] at this
    exact fun he => this (he ▸ rfl)

/-- C3: starting from an empty store, any sequence of appends (across any
number of cycles, duplicates included) leaves exactly the first threat
appended per identifier, in append order; the resulting identifiers are
pairwise distinct; and appending a threat whose identifier is already present
returns the store unchanged. -/
theorem store_first_write_wins :
    (∀ seq : List OTThreat,
        addThreats [] seq = firstById seq ∧
        (addThreats [] seq).Pairwise (fun a b => a.cve_id ≠ b.cve_id)) ∧
    (∀ ts t, (∃ u ∈ ts, u.cve_id = t.cve_id) → addThreat ts t = ts) := by
  constructor
  · intro seq
    have h0 : addThreats [] seq = firstById seq := by
      have h1 := addThreats_eq seq []
      have h2 : seq.filter (fun u => !hasId [] u.cve_id) = seq := by
        apply List.filter_eq_self.mpr
        intro u _
        rfl
      rw [h1, h2]
      rfl
    refine ⟨h0, ?_⟩
    rw [h0]
    exact firstById_pairwise seq
  · rintro ts t ⟨u, hu, he⟩
    have hh : hasId ts t.cve_id = true := by
      simp only [hasId, List.any_eq_true]
      exact ⟨u, hu, by simp [he]⟩
    simp [addThreat, hh]

theorem store_first_write_wins_witness :
    addThreat [threatA] threatA2 = [threatA] :=
  store_first_write_wins.2 [threatA] threatA2
    ⟨threatA, List.mem_singleton.mpr rfl, rfl⟩

/-! ## Persistence lemmas -/

theorem decodeCvss_encodeCvss (x : Option ℚ) : decodeCvss (encodeCvss x) = some x := by
  cases x <;> rfl

theorem decodeStrs_encode (l : List (List Char)) :
    decodeStrs (l.map JValue.str) = some l := by
  induction l with
  | nil => rfl
  | cons s ss ih => simp [decodeStrs, decodeStr, ih]

theorem threatFromItem_asdict (t : OTThreat) :
    threatFromItem (threatAsdict t) = some t := by
  simp [threatAsdict, threatFromItem, decodeStr, decodeCvss_encodeCvss, decodeStrs_encode]

/-- C7: flushing any store content (empty or not) to the output file and
reconstructing a store from that file restores the same threat sequence
field for field. -/
theorem store_roundtrip (ot_threats : List OTThreat) :
    load_existing_threats (save_threats ot_threats) = some ot_threats := by
  have h : ∀ l : List OTThreat, load_threat_list (l.map threatAsdict) = some l := by
    intro l
    induction l with
    | nil => rfl
    | cons t ts ih => simp [load_threat_list, threatFromItem_asdict, ih]
  unfold save_threats load_existing_threats
  exact h ot_threats

/-! ## Source client lemmas -/

theorem processVulns_cons (seen : List (List Char)) (v : RawCVE) (rest : List RawCVE) :
    processVulns seen (v :: rest) =
      if v.id ∈ seen then processVulns seen rest
      else
        match extractDescription v.descriptions with
        | none => (none, seen)
        | some desc =>
          match processVulns (v.id :: seen) rest with
          | (some cves, seen') =>
            (some ({ cve_id := v.id, description := desc,
                     cvss_score := some (extractCvss v),
                     published_date := v.published,
                     last_modified := v.lastModified } :: cves), seen')
          | (none, seen') => (none, seen') := rfl

theorem fetch_ok (st : CVEFetcher) (vulns : List RawCVE) :
    fetch_latest_cves st (.ok vulns) =
      match processVulns st.processed_cves vulns with
      | (some cves, seen') => (cves, ⟨seen'⟩)
      | (none, seen') => ([], ⟨seen'⟩) := rfl

theorem processVulns_snd_cons (seen : List (List Char)) (v : RawCVE) (rest : List RawCVE) :
    (processVulns seen (v :: rest)).2 =
      if v.id ∈ seen then (processVulns seen rest).2
      else
        match extractDescription v.descriptions with
        | none => seen
        | some _ => (processVulns (v.id :: seen) rest).2 := by
  rw [processVulns_cons]
  by_cases hv : v.id ∈ seen
  · rw [if_pos hv, if_pos hv]
  · rw [if_neg hv, if_neg hv]
    cases extractDescription v.descriptions with
    | none => rfl
    | some desc =>
      rcases hr : processVulns (v.id :: seen) rest with ⟨res, s'⟩
      cases res <;> rfl

theorem processVulns_seen_mono (vulns : List RawCVE) :
    ∀ (seen : List (List Char)) (id : List Char),
      id ∈ seen → id ∈ (processVulns seen vulns).2 := by
  induction vulns with
  | nil => intro seen id h; exact h
  | cons v rest ih =>
    intro seen id h
    rw [processVulns_snd_cons]
    by_cases hv : v.id ∈ seen
    · rw [if_pos hv]; exact ih seen id h
    · rw [if_neg hv]
      cases extractDescription v.descriptions with
      | none => exact h
      | some _ => exact ih (v.id :: seen) id (List.mem_cons_of_mem _ h)

theorem newIds_not_mem (vulns : List RawCVE) :
    ∀ (seen : List (List Char)) (id : List Char),
      id ∈ newIds seen vulns → id ∉ seen := by
  induction vulns with
  | nil => intro seen id h; simp [newIds] at h
  | cons v rest ih =>
    intro seen id h
    unfold newIds at h
    by_cases hv : v.id ∈ seen
    · rw [if_pos hv] at h; exact ih seen id h
    · rw [if_neg hv] at h
      rcases List.mem_cons.mp h with rfl | h2
      · exact hv
      · intro hseen
        exact ih (v.id :: seen) id h2 (List.mem_cons_of_mem _ hseen)

theorem processVulns_ids (vulns : List RawCVE) :
    ∀ (seen : List (List Char)) (cves : List CVEData) (seen' : List (List Char)),
      processVulns seen vulns = (some cves, seen') →
      cves.map CVEData.cve_id = newIds seen vulns := by
  induction vulns with
  | nil =>
    intro seen cves seen' h
    unfold processVulns at h
    simp only [Prod.mk.injEq, Option.some.injEq] at h
    obtain ⟨rfl, rfl⟩ := h
    rfl
  | cons v rest ih =>
    intro seen cves seen' h
    unfold processVulns at h
    unfold newIds
    by_cases hv : v.id ∈ seen
    · rw [if_pos hv] at h
      rw [if_pos hv]
      exact ih seen cves seen' h
    · rw [if_neg hv] at h
      rw [if_neg hv]
      cases hd : extractDescription v.descriptions with
      | none =>
        rw [hd] at h
        simp at h
      | some desc =>
        rw [hd] at h
        rcases hr : processVulns (v.id :: seen) rest with ⟨res, s'⟩
        rw [hr] at h
        cases res with
        | none => simp at h
        | some cs =>
          simp only [Prod.mk.injEq, Option.some.injEq] at h
          obtain ⟨rfl, rfl⟩ := h
          simp only [List.map_cons]
          exact congrArg (fun l => v.id :: l) (ih (v.id :: seen) cs s' hr)

theorem processVulns_out_sub (vulns : List RawCVE) :
    ∀ (seen : List (List Char)) (cves : List CVEData) (seen' : List (List Char)),
      processVulns seen vulns = (some cves, seen') →
      ∀ c ∈ cves, c.cve_id ∈ seen' := by
  induction vulns with
  | nil =>
    intro seen cves seen' h c hc
    unfold processVulns at h
    simp only [Prod.mk.injEq, Option.some.injEq] at h
    obtain ⟨rfl, rfl⟩ := h
    simp at hc
  | cons v rest ih =>
    intro seen cves seen' h c hc
    unfold processVulns at h
    by_cases hv : v.id ∈ seen
    · rw [if_pos hv] at h
      exact ih seen cves seen' h c hc
    · rw [if_neg hv] at h
      cases hd : extractDescription v.descriptions with
      | none => rw [hd] at h; simp at h
      | some desc =>
        rw [hd] at h
        rcases hr : processVulns (v.id :: seen) rest with ⟨res, s'⟩
        rw [hr] at h
        cases res with
        | none => simp at h
        | some cs =>
          simp only [Prod.mk.injEq, Option.some.injEq] at h
          obtain ⟨rfl, rfl⟩ := h
          rcases List.mem_cons.mp hc with rfl | h2
          · have := processVulns_seen_mono rest (v.id :: seen) v.id (List.mem_cons_self _ _)
            rw [hr] at this
            exact this
          · exact ih (v.id :: seen) cs s' hr c h2

theorem fetch_mono (st : CVEFetcher) (r : Except Unit (List RawCVE)) (id : List Char)
    (h : id ∈ st.processed_cves) :
    id ∈ (fetch_latest_cves st r).2.processed_cves := by
  cases r with
  | error e => exact h
  | ok vulns =>
    rw [fetch_ok]
    rcases hr : processVulns st.processed_cves vulns with ⟨res, seen'⟩
    have hmem := processVulns_seen_mono vulns st.processed_cves id h
    rw [hr] at hmem
    cases res <;> exact hmem

theorem fetch_out_new (st : CVEFetcher) (r : Except Unit (List RawCVE)) :
    ∀ c ∈ (fetch_latest_cves st r).1, c.cve_id ∉ st.processed_cves := by
  intro c hc
  cases r with
  | error e => simp [fetch_latest_cves] at hc
  | ok vulns =>
    rw [fetch_ok] at hc
    rcases hr : processVulns st.processed_cves vulns with ⟨res, seen'⟩
    rw [hr] at hc
    cases res with
    | none => simp at hc
    | some cs =>
      have hids := processVulns_ids vulns st.processed_cves cs seen' hr
      apply newIds_not_mem vulns st.processed_cves
      rw [← hids]
      exact List.mem_map_of_mem CVEData.cve_id hc

theorem fetch_out_sub (st : CVEFetcher) (r : Except Unit (List RawCVE)) :
    ∀ c ∈ (fetch_latest_cves st r).1,
      c.cve_id ∈ (fetch_latest_cves st r).2.processed_cves := by
  intro c hc
  cases r with
  | error e => simp [fetch_latest_cves] at hc
  | ok vulns =>
    rw [fetch_ok] at hc ⊢
    rcases hr : processVulns st.processed_cves vulns with ⟨res, seen'⟩
    rw [hr] at hc
    cases res with
    | none => simp at hc
    | some cs => exact processVulns_out_sub vulns st.processed_cves cs seen' hr c hc

theorem runFetch_mono (hist : List (Except Unit (List RawCVE))) :
    ∀ (st : CVEFetcher) (id : List Char),
      id ∈ st.processed_cves → id ∈ (runFetch st hist).2.processed_cves := by
  induction hist with
  | nil => intro st id h; exact h
  | cons r rs ih =>
    intro st id h
    exact ih (fetch_latest_cves st r).2 id (fetch_mono st r id h)

theorem runFetch_avoid (hist : List (Except Unit (List RawCVE))) :
    ∀ (st : CVEFetcher) (id : List Char), id ∈ st.processed_cves →
      ∀ out ∈ (runFetch st hist).1, id ∉ out.map CVEData.cve_id := by
  induction hist with
  | nil => intro st id h out hout; simp [runFetch] at hout
  | cons r rs ih =>
    intro st id h out hout
    rcases List.mem_cons.mp hout with rfl | h2
    · intro hid
      obtain ⟨c, hc, hcid⟩ := List.mem_map.mp hid
      exact fetch_out_new st r c hc (hcid ▸ h)
    · exact ih (fetch_latest_cves st r).2 id (fetch_mono st r id h) out h2

/-- C6 (amended): the Source Client's fetch behaves as follows.  A transport
failure returns zero records and leaves the seen-set untouched; a mid-call
parse failure returns zero records but keeps the identifiers added before the
failure.  A successful call returns exactly the window's records whose
identifiers are not in the seen-set at call start (first occurrence per
identifier, in window order) — the seen-set, not "previously returned",
because a record parsed before a later parse failure is marked seen without
ever being returned.  Across any call history of one instance, no identifier
appears in the output of more than one call. -/
theorem fetcher_contract :
    (∀ st : CVEFetcher, fetch_latest_cves st (.error ()) = ([], st)) ∧
    (∀ (st : CVEFetcher) (vulns : List RawCVE) (seen' : List (List Char)),
        processVulns st.processed_cves vulns = (none, seen') →
        fetch_latest_cves st (.ok vulns) = ([], ⟨seen'⟩)) ∧
    (∀ (seen : List (List Char)) (vulns : List RawCVE) (cves : List CVEData)
        (seen' : List (List Char)),
        processVulns seen vulns = (some cves, seen') →
        cves.map CVEData.cve_id = newIds seen vulns) ∧
    (∀ (st : CVEFetcher) (hist : List (Except Unit (List RawCVE))),
        ((runFetch st hist).1.map (fun out => out.map CVEData.cve_id)).Pairwise
          (fun a b => ∀ x ∈ a, x ∉ b)) := by
  refine ⟨fun st => rfl, ?_, ?_, ?_⟩
  · intro st vulns seen' h
    rw [fetch_ok, h]
  · intro seen vulns cves seen' h
    exact processVulns_ids vulns seen cves seen' h
  · intro st hist
    induction hist generalizing st with
    | nil => simp [runFetch]
    | cons r rs ih =>
      simp only [runFetch, List.map_cons]
      refine List.Pairwise.cons ?_ (ih (fetch_latest_cves st r).2)
      intro b hb x hx
      obtain ⟨out, hout, rfl⟩ := List.mem_map.mp hb
      obtain ⟨c, hc, rfl⟩ := List.mem_map.mp hx
      exact runFetch_avoid rs (fetch_latest_cves st r).2 c.cve_id
        (fetch_out_sub st r c hc) out hout

theorem fetcher_contract_witness :
    [cveA].map CVEData.cve_id = newIds [] [rawA] :=
  fetcher_contract.2.2.1 [] [rawA] [cveA] ["CVE-A".toList] (by decide)

/-- C6 (counterexample to the claim as stated): in the first call record
`rawA` parses and is marked seen, then `rawBad` raises `IndexError`, so the
call returns zero records.  The second call parses successfully and its
window contains `rawA`, whose identifier was never returned by any call —
yet the call returns nothing, because the identifier is already in the
seen-set. -/
theorem fetcher_returns_new_counterexample :
    (runFetch ⟨[]⟩ [.ok [rawA, rawBad], .ok [rawA]]).1 = [[], []] ∧
    (processVulns (runFetch ⟨[]⟩ [.ok [rawA, rawBad]]).2.processed_cves [rawA]).1.isSome
      = true ∧
    rawA.id ∈ [rawA].map RawCVE.id := by
  refine ⟨by decide, by decide, by decide⟩
